import Mathlib

/-!
Verification development for the schwab-mcp remote server.

The definitions below are a shallow embedding of the Python source:
* `src/schwab_mcp/remote/oauth.py` (class `SchwabMCPOAuthProvider`),
* `src/schwab_mcp/remote/rate_limit.py` (class `RateLimitMiddleware`),
* `src/schwab_mcp/approvals/base.py` (class `NoOpApprovalManager`).

Python dictionaries are modelled by insertion-ordered association lists
(`OMap`): assignment to an existing key updates the value in place keeping
its position, assignment to a fresh key appends at the end, and
`next(iter(d))` is the head key.  Wall-clock timestamps are modelled as
natural numbers (`time.time()`), monotonic timestamps of the rate limiter
as integers (`time.monotonic()` and subtraction).  Randomly generated
tokens (`secrets.token_hex`) are passed in as explicit arguments; where a
property needs their freshness, it is a stated hypothesis.
-/

namespace SchwabMCP

/-- Insertion-ordered association list modelling a Python `dict`. -/
abbrev OMap (α : Type) (β : Type) := List (α × β)

namespace OMap

variable {α β : Type} [DecidableEq α]

/-- `d.get(k)` / `d[k]` lookup. -/
def find? : OMap α β → α → Option β
  | [], _ => none
  | (k', v) :: rest, k => if k' = k then some v else find? rest k

/-- `k in d`. -/
def contains (m : OMap α β) (k : α) : Bool :=
  (m.find? k).isSome

/-- `d[k] = v`: update in place when the key is present (keeping its
position, as a Python dict does), append otherwise. -/
def insert : OMap α β → α → β → OMap α β
  | [], k, v => [(k, v)]
  | (k', v') :: rest, k, v =>
      if k' = k then (k, v) :: rest else (k', v') :: insert rest k v

/-- `del d[k]` / `d.pop(k, None)`: remove the key (no-op when absent;
the call sites guard presence where Python `del` would raise). -/
def erase (m : OMap α β) (k : α) : OMap α β :=
  m.filter (fun p => p.1 ≠ k)

/-- `len(d)`. -/
def size (m : OMap α β) : Nat := m.length

/-- `next(iter(d))`: the first (oldest) key. -/
def firstKey? (m : OMap α β) : Option α :=
  m.head?.map Prod.fst

/-- The list of keys, in insertion order. -/
def keys (m : OMap α β) : List α := m.map Prod.fst

/-- Well-formedness of a map coming from a Python dict: no duplicate keys. -/
def WFKeys (m : OMap α β) : Prop := m.keys.Nodup

end OMap

/-! ## Data model (`remote/oauth.py`) -/

/-- `ACCESS_TOKEN_TTL = 86400` (24 hours). -/
def ACCESS_TOKEN_TTL : Nat := 86400

/-- `AUTH_CODE_TTL = 300` (5 minutes). -/
def AUTH_CODE_TTL : Nat := 300

/-- `REFRESH_TOKEN_TTL = 30 * 86400` (30 days). -/
def REFRESH_TOKEN_TTL : Nat := 30 * 86400

/-- `MAX_CLIENTS = 10`. -/
def MAX_CLIENTS : Nat := 10

/-- `MAX_AUTH_CODES = 50`. -/
def MAX_AUTH_CODES : Nat := 50

/-- `MAX_ACCESS_TOKENS = 50`. -/
def MAX_ACCESS_TOKENS : Nat := 50

/-- `MAX_REFRESH_TOKENS = 50`. -/
def MAX_REFRESH_TOKENS : Nat := 50

/-- `MAX_STATE_MAPPINGS = 50`. -/
def MAX_STATE_MAPPINGS : Nat := 50

/-- `OAuthClientInformationFull`, reduced to the fields the provider
reads (`client_id`); the remaining registration metadata is opaque. -/
structure ClientInfo where
  client_id : String
  metadata : String
  deriving DecidableEq, Repr

/-- `mcp.server.auth.provider.AuthorizationCode`. -/
structure AuthorizationCode where
  code : String
  client_id : String
  redirect_uri : String
  redirect_uri_provided_explicitly : Bool
  expires_at : Option Nat
  scopes : List String
  code_challenge : String
  resource : Option String
  deriving DecidableEq, Repr

/-- `mcp.server.auth.provider.AccessToken` (`resource` defaults to `None`
when the constructor omits it). -/
structure AccessToken where
  token : String
  client_id : String
  scopes : List String
  expires_at : Option Nat
  resource : Option String
  deriving DecidableEq, Repr

/-- `mcp.server.auth.provider.RefreshToken`. -/
structure RefreshToken where
  token : String
  client_id : String
  scopes : List String
  expires_at : Option Nat
  deriving DecidableEq, Repr

/-- `mcp.shared.auth.OAuthToken`: the JSON body returned from `/token`. -/
structure OAuthToken where
  access_token : String
  token_type : String
  expires_in : Nat
  refresh_token : Option String
  scope : String
  deriving DecidableEq, Repr

/-- One value of `_state_mapping`: the `dict[str, str | None]` stored by
`authorize` (the `redirect_uri_provided_explicitly` round-trip through
`str(...) == "True"` is the identity on booleans and is modelled as such). -/
structure ConsentStateData where
  redirect_uri : String
  code_challenge : String
  redirect_uri_provided_explicitly : Bool
  client_id : String
  resource : Option String
  deriving DecidableEq, Repr

/-- `AuthorizationParams` fields read by `authorize`. -/
structure AuthorizationParams where
  state : Option String
  redirect_uri : String
  code_challenge : String
  redirect_uri_provided_explicitly : Bool
  resource : Option String
  deriving DecidableEq, Repr

/-- The in-memory stores of `SchwabMCPOAuthProvider`. -/
structure ProviderState where
  clients : OMap String ClientInfo
  auth_codes : OMap String AuthorizationCode
  access_tokens : OMap String AccessToken
  refresh_tokens : OMap String RefreshToken
  state_mapping : OMap String ConsentStateData
  deriving DecidableEq, Repr

/-- The empty provider (`__init__`). -/
def ProviderState.empty : ProviderState :=
  ⟨[], [], [], [], []⟩

/-- Python truthiness test `v.expires_at` on `float | None`:
falsy exactly when `None` or `0`. -/
def expiryTruthy : Option Nat → Bool
  | none => false
  | some t => t ≠ 0

/-- The keep-condition of `_evict_expired`:
`not v.expires_at or v.expires_at > now`. -/
def keepUnexpired (now : Nat) (e : Option Nat) : Bool :=
  !expiryTruthy e || (match e with | none => true | some t => t > now)

/-- `_evict_expired`: drop expired entries from the auth-code, access-token
and refresh-token stores.  `_clients` and `_state_mapping` are untouched. -/
def evict_expired (now : Nat) (s : ProviderState) : ProviderState :=
  { s with
    auth_codes := s.auth_codes.filter (fun p => keepUnexpired now p.2.expires_at)
    access_tokens := s.access_tokens.filter (fun p => keepUnexpired now p.2.expires_at)
    refresh_tokens := s.refresh_tokens.filter (fun p => keepUnexpired now p.2.expires_at) }

/-- `get_client`. -/
def get_client (s : ProviderState) (client_id : String) : Option ClientInfo :=
  s.clients.find? client_id

/-- `register_client`: raises on an empty client id, raises
"Maximum number of registered clients reached" for a fresh id at the cap,
otherwise stores/updates the client. -/
def register_client (s : ProviderState) (info : ClientInfo) :
    Except String ProviderState :=
  if info.client_id = "" then
    .error "No client_id provided"
  else if !s.clients.contains info.client_id ∧ s.clients.size ≥ MAX_CLIENTS then
    .error "Maximum number of registered clients reached"
  else
    .ok { s with clients := s.clients.insert info.client_id info }

/-- Python `params.state or secrets.token_hex(16)`: the generated hex token
is the explicit `fresh` argument; an absent or empty `state` is falsy. -/
def orTokenHex : Option String → String → String
  | none, fresh => fresh
  | some st, fresh => if st = "" then fresh else st

/-- `authorize`: evict expired entries, pick the state token, evict the
oldest consent entry when at capacity, store the consent data, and return
the chosen state (the consent URL carries exactly this state). -/
def authorize (now : Nat) (freshState : String) (client : ClientInfo)
    (params : AuthorizationParams) (s : ProviderState) :
    String × ProviderState :=
  let s1 := evict_expired now s
  let state := orTokenHex params.state freshState
  let sm :=
    if s1.state_mapping.size ≥ MAX_STATE_MAPPINGS then
      match s1.state_mapping.firstKey? with
      | some oldest => s1.state_mapping.erase oldest
      | none => s1.state_mapping
    else s1.state_mapping
  let sm := sm.insert state
    ⟨params.redirect_uri, params.code_challenge,
      params.redirect_uri_provided_explicitly, client.client_id,
      params.resource⟩
  (state, { s1 with state_mapping := sm })

/-- Responses of the consent endpoints, shallowly: the 400
"Invalid or expired state" page, or a 302 redirect whose query parameters
(`code`, `error`, `state`) are those passed to `construct_redirect_uri`. -/
inductive ConsentResponse where
  | invalidState
  | redirect (base : String) (code : Option String) (error : Option String)
      (state : String)
  deriving DecidableEq, Repr

/-- `get_consent_page`: 400 when the state is unknown, else the HTML page. -/
def get_consent_page (s : ProviderState) (state : String) : ConsentResponse :=
  if s.state_mapping.contains state then
    .redirect "consent-page" none none state
  else .invalidState

/-- `handle_consent`: consume the consent state; deny redirects with
`error=access_denied`, approve mints an authorization code bound to the
stored challenge/redirect/resource.  `freshCode` stands for
`"schwab_mcp_" + secrets.token_hex(16)`. -/
def handle_consent (now : Nat) (freshCode : String)
    (formState : Option String) (action : Option String)
    (s : ProviderState) : ConsentResponse × ProviderState :=
  match formState with
  | none => (.invalidState, s)
  | some state =>
    match s.state_mapping.find? state with
    | none => (.invalidState, s)
    | some sd =>
      if action ≠ some "approve" then
        (.redirect sd.redirect_uri none (some "access_denied") state,
          { s with state_mapping := s.state_mapping.erase state })
      else
        let ac : AuthorizationCode :=
          ⟨freshCode, sd.client_id, sd.redirect_uri,
            sd.redirect_uri_provided_explicitly,
            some (now + AUTH_CODE_TTL), ["mcp"], sd.code_challenge,
            sd.resource⟩
        (.redirect sd.redirect_uri (some freshCode) none state,
          { s with
            auth_codes := s.auth_codes.insert freshCode ac
            state_mapping := s.state_mapping.erase state })

/-- `load_authorization_code`: a plain lookup (no expiry check here). -/
def load_authorization_code (s : ProviderState) (code : String) :
    Option AuthorizationCode :=
  s.auth_codes.find? code

/-- `" ".join(scopes)`. -/
def joinScopes (scopes : List String) : String :=
  String.intercalate " " scopes

/-- `exchange_authorization_code`.  Mutations made before a raise persist,
so the function returns the result together with the state it leaves
behind.  The final `del self._auth_codes[...]` raises `KeyError` when the
eviction sweep already removed the (expired) code; that branch is modelled
by the trailing `contains` test. -/
def exchange_authorization_code (now : Nat) (freshAT freshRT : String)
    (client : ClientInfo) (ac : AuthorizationCode) (s : ProviderState) :
    Except String OAuthToken × ProviderState :=
  if !s.auth_codes.contains ac.code then
    (.error "Invalid authorization code", s)
  else if client.client_id = "" then
    (.error "No client_id provided", s)
  else
    let s1 := evict_expired now s
    let s2 := { s1 with
      access_tokens := s1.access_tokens.insert freshAT
        ⟨freshAT, client.client_id, ac.scopes,
          some (now + ACCESS_TOKEN_TTL), ac.resource⟩
      refresh_tokens := s1.refresh_tokens.insert freshRT
        ⟨freshRT, client.client_id, ac.scopes,
          some (now + REFRESH_TOKEN_TTL)⟩ }
    if s2.auth_codes.contains ac.code then
      (.ok ⟨freshAT, "Bearer", ACCESS_TOKEN_TTL, some freshRT,
          joinScopes ac.scopes⟩,
        { s2 with auth_codes := s2.auth_codes.erase ac.code })
    else
      (.error "KeyError", s2)

/-- The lazy-expiry test of `load_access_token` / `load_refresh_token`:
`tk.expires_at and tk.expires_at < now` — note the strict `<`. -/
def expiredStrict (now : Nat) (e : Option Nat) : Bool :=
  expiryTruthy e && (match e with | none => false | some t => t < now)

/-- `load_access_token`: lazy expiry with the strict comparison
`access_token.expires_at < time.time()` (guarded by Python truthiness of
`expires_at`). -/
def load_access_token (now : Nat) (token : String) (s : ProviderState) :
    Option AccessToken × ProviderState :=
  match s.access_tokens.find? token with
  | none => (none, s)
  | some tk =>
    if expiredStrict now tk.expires_at then
      (none, { s with access_tokens := s.access_tokens.erase token })
    else
      (some tk, s)

/-- `load_refresh_token`: same lazy strict-comparison expiry as
`load_access_token`, on the refresh-token store. -/
def load_refresh_token (now : Nat) (token : String) (s : ProviderState) :
    Option RefreshToken × ProviderState :=
  match s.refresh_tokens.find? token with
  | none => (none, s)
  | some tk =>
    if expiredStrict now tk.expires_at then
      (none, { s with refresh_tokens := s.refresh_tokens.erase token })
    else
      (some tk, s)

/-- Python `scopes or refresh_token.scopes` (empty list is falsy). -/
def effectiveScopes (scopes orig : List String) : List String :=
  match scopes with
  | [] => orig
  | _ => scopes

/-- `exchange_refresh_token`: evict expired entries, revoke the presented
refresh token when still present, and issue a new pair carrying
`scopes or refresh_token.scopes`; the new access token's constructor omits
`resource`, so it defaults to `none`. -/
def exchange_refresh_token (now : Nat) (freshAT freshRT : String)
    (client : ClientInfo) (rt : RefreshToken) (scopes : List String)
    (s : ProviderState) : Except String OAuthToken × ProviderState :=
  if client.client_id = "" then
    (.error "No client_id provided", s)
  else
    let s1 := evict_expired now s
    let s2 := { s1 with
      refresh_tokens :=
        if s1.refresh_tokens.contains rt.token then
          s1.refresh_tokens.erase rt.token
        else s1.refresh_tokens }
    let es := effectiveScopes scopes rt.scopes
    let s3 := { s2 with
      access_tokens := s2.access_tokens.insert freshAT
        ⟨freshAT, client.client_id, es, some (now + ACCESS_TOKEN_TTL), none⟩
      refresh_tokens := s2.refresh_tokens.insert freshRT
        ⟨freshRT, client.client_id, es, some (now + REFRESH_TOKEN_TTL)⟩ }
    (.ok ⟨freshAT, "Bearer", ACCESS_TOKEN_TTL, some freshRT, joinScopes es⟩, s3)

/-- `revoke_token`: `pop(token, None)` from both token stores. -/
def revoke_token (token : String) (s : ProviderState) : ProviderState :=
  { s with
    access_tokens := s.access_tokens.erase token
    refresh_tokens := s.refresh_tokens.erase token }

/-! ## Rate limiter (`remote/rate_limit.py`) -/

/-- `_RateLimitRule`. -/
structure RateLimitRule where
  pathPre : String
  max_requests : Nat
  window_seconds : Int
  deriving DecidableEq, Repr

/-- `_ClientWindow`. -/
structure ClientWindow where
  timestamps : List Int
  deriving DecidableEq, Repr

/-- `_MAX_TRACKED_CLIENTS = 1000`. -/
def MAX_TRACKED_CLIENTS : Nat := 1000

/-- The mutable state of `RateLimitMiddleware`: the `(client_ip, prefix)`
keyed window map, together with the configured rules. -/
structure LimiterState where
  rules : List RateLimitRule
  windows : OMap (String × String) ClientWindow
  deriving DecidableEq, Repr

/-- `max(r.window_seconds for r in self.rules)` (raises on no rules; the
middleware always has a non-empty rule list). -/
def maxWindowSeconds : List RateLimitRule → Int
  | [] => 0
  | r :: rs => rs.foldl (fun a x => max a x.window_seconds) r.window_seconds

/-- `_evict_stale_clients`: drop window entries with no timestamps or whose
most recent timestamp is older than `now - 2 * max_window`. -/
def evict_stale_clients (now : Int) (st : LimiterState) : LimiterState :=
  let cutoff := now - maxWindowSeconds st.rules * 2
  { st with windows := st.windows.filter (fun kv =>
      match kv.2.timestamps.getLast? with
      | none => false
      | some t => ¬ t < cutoff) }

/-- The timestamp list read through `self._windows[key]` (a `defaultdict`,
so an absent key reads as an empty window). -/
def windowTS (st : LimiterState) (key : String × String) : List Int :=
  match st.windows.find? key with
  | some w => w.timestamps
  | none => []

/-- `_is_rate_limited`: the defaultdict lookup materialises an empty window,
timestamps outside the rule's window are evicted in place, the request is
rejected when the remaining count reaches `max_requests` (without being
recorded), otherwise `now` is appended and the stale-client sweep runs when
the map has grown past `_MAX_TRACKED_CLIENTS`. -/
def is_rate_limited (now : Int) (client_ip : String) (rule : RateLimitRule)
    (st : LimiterState) : Bool × LimiterState :=
  let key := (client_ip, rule.pathPre)
  let ts := windowTS st key
  let cutoff := now - rule.window_seconds
  let ts := ts.filter (fun t => t > cutoff)
  if ts.length ≥ rule.max_requests then
    (true, { st with windows := st.windows.insert key ⟨ts⟩ })
  else
    let st1 := { st with windows := st.windows.insert key ⟨ts ++ [now]⟩ }
    if st1.windows.size > MAX_TRACKED_CLIENTS then
      (false, evict_stale_clients now st1)
    else
      (false, st1)

/-! ## Approval gate (`approvals/base.py`) -/

/-- `ApprovalDecision`. -/
inductive ApprovalDecision where
  | APPROVED
  | DENIED
  | EXPIRED
  deriving DecidableEq, Repr

/-- `ApprovalRequest`. -/
structure ApprovalRequest where
  id : String
  tool_name : String
  request_id : String
  client_id : Option String
  arguments : List (String × String)
  deriving DecidableEq, Repr

/-- Log levels used by the embedded modules. -/
inductive LogLevel where
  | warning
  | info
  deriving DecidableEq, Repr

/-- One `logger.warning(...)` call of `NoOpApprovalManager.require`,
recorded structurally: the level and each formatting argument. -/
structure AuditLogEntry where
  level : LogLevel
  tool_name : String
  approval_id : String
  client_field : String
  request_id : String
  arguments : List (String × String)
  deriving DecidableEq, Repr

/-- Python `request.client_id or "<unknown>"` (None and `""` are falsy). -/
def clientOrUnknown : Option String → String
  | none => "<unknown>"
  | some s => if s = "" then "<unknown>" else s

/-- `NoOpApprovalManager.require`: always APPROVED, with the single
warning-level audit record emitted on the way. -/
def NoOpRequire (r : ApprovalRequest) : ApprovalDecision × List AuditLogEntry :=
  (ApprovalDecision.APPROVED,
    [⟨LogLevel.warning, r.tool_name, r.id, clientOrUnknown r.client_id,
      r.request_id, r.arguments⟩])

/-! ## Operations as a step relation

All ways the provider state is ever mutated, for store-level invariants. -/

/-- One call on `SchwabMCPOAuthProvider`. -/
inductive ProviderOp where
  | opRegisterClient (info : ClientInfo)
  | opAuthorize (now : Nat) (freshState : String) (client : ClientInfo)
      (params : AuthorizationParams)
  | opGetConsentPage (state : String)
  | opHandleConsent (now : Nat) (freshCode : String)
      (formState : Option String) (action : Option String)
  | opLoadAuthorizationCode (code : String)
  | opExchangeAuthorizationCode (now : Nat) (freshAT freshRT : String)
      (client : ClientInfo) (ac : AuthorizationCode)
  | opLoadAccessToken (now : Nat) (token : String)
  | opLoadRefreshToken (now : Nat) (token : String)
  | opExchangeRefreshToken (now : Nat) (freshAT freshRT : String)
      (client : ClientInfo) (rt : RefreshToken) (scopes : List String)
  | opRevokeToken (token : String)
  | opEvictExpired (now : Nat)
  deriving DecidableEq, Repr

/-- The provider state after one call (results discarded; a raised
exception leaves behind exactly the mutations made before the raise). -/
def stepState (op : ProviderOp) (s : ProviderState) : ProviderState :=
  match op with
  | .opRegisterClient info =>
      match register_client s info with
      | .ok s' => s'
      | .error _ => s
  | .opAuthorize now fresh client params => (authorize now fresh client params s).2
  | .opGetConsentPage _ => s
  | .opHandleConsent now freshCode formState action =>
      (handle_consent now freshCode formState action s).2
  | .opLoadAuthorizationCode _ => s
  | .opExchangeAuthorizationCode now fAT fRT client ac =>
      (exchange_authorization_code now fAT fRT client ac s).2
  | .opLoadAccessToken now token => (load_access_token now token s).2
  | .opLoadRefreshToken now token => (load_refresh_token now token s).2
  | .opExchangeRefreshToken now fAT fRT client rt scopes =>
      (exchange_refresh_token now fAT fRT client rt scopes s).2
  | .opRevokeToken token => revoke_token token s
  | .opEvictExpired now => evict_expired now s

/-! ## Auxiliary definitions for concrete runs -/

/-- Whether an `Except` result is a success (no exception raised). -/
def resultOk {ε α : Type} : Except ε α → Bool
  | .ok _ => true
  | .error _ => false

/-- A registered client used in concrete runs. -/
def fixClient : ClientInfo := ⟨"client-1", "meta"⟩

/-- Authorization parameters used in concrete runs (no caller-chosen
`state`, so the generated one is used). -/
def fixParams : AuthorizationParams :=
  ⟨none, "https://cb.example/redirect", "challenge", true, none⟩

/-- Distinct one-character state tokens for the i-th authorization. -/
def nameC2 (i : Nat) : String := String.mk [Char.ofNat (65 + i)]

/-- Distinct authorization-code strings for the i-th consent approval. -/
def codeC2 (i : Nat) : String := String.mk ['c', Char.ofNat (65 + i)]

/-- One full authorization round at time 0: `authorize` (storing consent
state `nameC2 i`) followed by an approving consent submission (minting
auth code `codeC2 i`). -/
def mintRound (i : Nat) (s : ProviderState) : ProviderState :=
  let s1 := (authorize 0 (nameC2 i) fixClient fixParams s).2
  (handle_consent 0 (codeC2 i) (some (nameC2 i)) (some "approve") s1).2

/-- `n` authorization rounds from the empty provider, all at time 0. -/
def mintMany : Nat → ProviderState
  | 0 => ProviderState.empty
  | n + 1 => mintRound n (mintMany n)

/-- `k` requests through `_is_rate_limited`, all at time `t0`, from a fresh
limiter over `rules`; returns the final state and whether every request
was allowed. -/
def sameTimeRun (ip : String) (rule : RateLimitRule) (t0 : Int)
    (rules : List RateLimitRule) : Nat → LimiterState × Bool
  | 0 => (⟨rules, []⟩, true)
  | k + 1 =>
    let p := sameTimeRun ip rule t0 rules k
    let q := is_rate_limited t0 ip rule p.1
    (q.2, p.2 && !q.1)

/-- An unexpired authorization code stored in `fixStateC1`. -/
def acC1 : AuthorizationCode :=
  ⟨"code-1", "client-1", "https://cb.example/redirect", true, some 300,
    ["mcp"], "challenge", some "https://mcp.example"⟩

/-- A provider holding one client and one authorization code. -/
def fixStateC1 : ProviderState :=
  ⟨[("client-1", fixClient)], [("code-1", acC1)], [], [], []⟩

/-- An access token expiring at 100. -/
def tokC3 : AccessToken := ⟨"tok", "client-1", ["mcp"], some 100, none⟩

/-- A refresh token expiring at 100. -/
def rtokC3 : RefreshToken := ⟨"rtok", "client-1", ["mcp"], some 100⟩

/-- A provider holding one access token and one refresh token, both with
expiry 100. -/
def fixStateC3 : ProviderState :=
  ⟨[], [], [("tok", tokC3)], [("rtok", rtokC3)], []⟩

/-- A known, unexpired refresh token with scope `["mcp"]`. -/
def rtC4 : RefreshToken := ⟨"rt-old", "client-1", ["mcp"], some 1000⟩

/-- A provider holding only `rtC4`. -/
def fixStateC4 : ProviderState :=
  ⟨[], [], [], [("rt-old", rtC4)], []⟩

/-- A stored consent state. -/
def sdC5 : ConsentStateData :=
  ⟨"https://cb.example/redirect", "challenge", true, "client-1",
    some "https://mcp.example"⟩

/-- A provider holding one consent state under key `"st1"`. -/
def fixStateC5 : ProviderState :=
  ⟨[], [], [], [], [("st1", sdC5)]⟩

/-! ## Ordered-map lemmas -/

namespace OMap

variable {α β : Type} [DecidableEq α]

theorem find?_insert_self (m : OMap α β) (k : α) (v : β) :
    (m.insert k v).find? k = some v := by
  induction m with
  | nil => simp [insert, find?]
  | cons hd tl ih =>
    by_cases h : hd.1 = k
    · simp [insert, find?, h]
    · simp [insert, find?, h, ih]

theorem find?_insert_ne (m : OMap α β) (k k' : α) (v : β) (h : k' ≠ k) :
    (m.insert k v).find? k' = m.find? k' := by
  induction m with
  | nil => simp [insert, find?, Ne.symm h]
  | cons hd tl ih =>
    by_cases hk : hd.1 = k
    · subst hk
      simp [insert, find?, Ne.symm h]
    · simp [insert, find?, hk, ih]

theorem erase_cons (hd : α × β) (tl : OMap α β) (k : α) :
    erase (hd :: tl) k =
      if hd.1 = k then erase tl k else hd :: erase tl k := by
  by_cases hk : hd.1 = k <;> simp [erase, List.filter_cons, hk]

theorem find?_erase_self (m : OMap α β) (k : α) :
    (m.erase k).find? k = none := by
  induction m with
  | nil => simp [erase, find?]
  | cons hd tl ih =>
    rw [erase_cons]
    by_cases h : hd.1 = k
    · simpa [h] using ih
    · simpa [find?, h] using ih

theorem find?_erase_ne (m : OMap α β) (k k' : α) (h : k' ≠ k) :
    (m.erase k).find? k' = m.find? k' := by
  induction m with
  | nil => simp [erase, find?]
  | cons hd tl ih =>
    rw [erase_cons]
    by_cases hk : hd.1 = k
    · subst hk
      simpa [find?, Ne.symm h] using ih
    · simp [find?, hk, ih]

theorem contains_insert_self (m : OMap α β) (k : α) (v : β) :
    (m.insert k v).contains k = true := by
  simp [contains, find?_insert_self]

theorem contains_erase_self (m : OMap α β) (k : α) :
    (m.erase k).contains k = false := by
  simp [contains, find?_erase_self]

theorem contains_insert_ne (m : OMap α β) (k k' : α) (v : β) (h : k' ≠ k) :
    (m.insert k v).contains k' = m.contains k' := by
  simp [contains, find?_insert_ne m k k' v h]

theorem contains_erase_ne (m : OMap α β) (k k' : α) (h : k' ≠ k) :
    (m.erase k).contains k' = m.contains k' := by
  simp [contains, find?_erase_ne m k k' h]

theorem size_insert_contains (m : OMap α β) (k : α) (v : β)
    (h : m.contains k = true) : (m.insert k v).size = m.size := by
  induction m with
  | nil => simp [contains, find?] at h
  | cons hd tl ih =>
    by_cases hk : hd.1 = k
    · simp [insert, size, hk]
    · have h' : contains tl k = true := by
        simpa [contains, find?, hk] using h
      simpa [insert, size, hk] using ih h'

theorem size_insert_not_contains (m : OMap α β) (k : α) (v : β)
    (h : m.contains k = false) : (m.insert k v).size = m.size + 1 := by
  induction m with
  | nil => simp [insert, size]
  | cons hd tl ih =>
    by_cases hk : hd.1 = k
    · simp [contains, find?, hk] at h
    · have h' : contains tl k = false := by
        simpa [contains, find?, hk] using h
      simpa [insert, size, hk] using ih h'

theorem keys_insert (m : OMap α β) (k : α) (v : β) :
    (m.insert k v).keys =
      if m.contains k then m.keys else m.keys ++ [k] := by
  induction m with
  | nil => simp [insert, keys, contains, find?]
  | cons hd tl ih =>
    by_cases hk : hd.1 = k
    · simp [insert, keys, contains, find?, hk]
    · simp only [insert, if_neg hk, keys, List.map_cons, contains, find?,
        if_neg hk]
      rw [show List.map Prod.fst (insert tl k v) = keys (insert tl k v)
        from rfl, ih]
      by_cases hc : contains tl k = true <;> simp [contains] at hc <;>
        simp [keys, contains, hc]

theorem keys_erase (m : OMap α β) (k : α) :
    (m.erase k).keys = m.keys.filter (fun x => x ≠ k) := by
  induction m with
  | nil => simp [erase, keys]
  | cons hd tl ih =>
    rw [erase_cons]
    by_cases hk : hd.1 = k
    · rw [if_pos hk, ih]
      simp [keys, List.filter_cons, hk]
    · rw [if_neg hk]
      show hd.1 :: (erase tl k).keys = _
      rw [ih]
      simp [keys, List.filter_cons, hk]

theorem mem_keys_insert (m : OMap α β) (k k' : α) (v : β) :
    k' ∈ (m.insert k v).keys ↔ k' = k ∨ k' ∈ m.keys := by
  rw [keys_insert]
  by_cases hc : m.contains k = true
  · simp only [hc, if_true]
    constructor
    · intro h
      exact Or.inr h
    · rintro (rfl | h)
      · induction m with
        | nil => simp [contains, find?] at hc
        | cons hd tl ih =>
          by_cases hk : hd.1 = k'
          · simp [keys, hk]
          · have : contains tl k' = true := by
              simpa [contains, find?, hk] using hc
            simp [keys]
            exact Or.inr (by simpa [keys] using ih this)
      · exact h
  · simp only [Bool.not_eq_true] at hc
    simp [hc, List.mem_append, or_comm]

theorem mem_keys_erase (m : OMap α β) (k k' : α) :
    k' ∈ (m.erase k).keys ↔ k' ∈ m.keys ∧ k' ≠ k := by
  rw [keys_erase]
  simp [List.mem_filter]

theorem find?_eq_none_of_not_mem_keys (m : OMap α β) (k : α)
    (h : k ∉ m.keys) : m.find? k = none := by
  induction m with
  | nil => simp [find?]
  | cons hd tl ih =>
    simp only [keys, List.map_cons, List.mem_cons] at h
    push_neg at h
    have h1 : ¬ hd.1 = k := fun hh => h.1 hh.symm
    have h2 : find? tl k = none := ih (by simpa [keys] using h.2)
    simp [find?, h1, h2]

theorem mem_keys_of_mem_keys_filter (m : OMap α β) (q : α × β → Bool)
    (k : α) (h : k ∈ keys (m.filter q)) : k ∈ m.keys := by
  simp only [keys, List.mem_map] at h ⊢
  obtain ⟨p, hp, rfl⟩ := h
  exact ⟨p, List.mem_of_mem_filter hp, rfl⟩

theorem find?_filter_of_wf (m : OMap α β) (q : α × β → Bool) (k : α)
    (v : β) (hw : WFKeys m) (hf : m.find? k = some v) :
    find? (m.filter q) k = if q (k, v) then some v else none := by
  induction m with
  | nil => simp [find?] at hf
  | cons hd tl ih =>
    have hw0 : (hd.1 :: keys tl).Nodup := hw
    have hw' : WFKeys tl := (List.nodup_cons.mp hw0).2
    have hhd : hd.1 ∉ keys tl := (List.nodup_cons.mp hw0).1
    by_cases hk : hd.1 = k
    · have hv : v = hd.2 := by
        simp [find?, hk] at hf
        exact hf.symm
      subst hv
      subst hk
      by_cases hq : q hd = true
      · simp [List.filter_cons, hq, find?]
      · have : find? (List.filter q tl) hd.1 = none := by
          apply find?_eq_none_of_not_mem_keys
          intro hmem
          exact hhd (mem_keys_of_mem_keys_filter tl q hd.1 hmem)
        simp only [Bool.not_eq_true] at hq
        simpa [List.filter_cons, hq] using this
    · have hf' : find? tl k = some v := by
        simpa [find?, hk] using hf
      by_cases hq : q hd = true
      · simpa [List.filter_cons, hq, find?, hk] using ih hw' hf'
      · simp only [Bool.not_eq_true] at hq
        simpa [List.filter_cons, hq] using ih hw' hf'

theorem not_mem_keys_of_contains_eq_false (m : OMap α β) (k : α)
    (hc : m.contains k = false) : k ∉ m.keys := by
  induction m with
  | nil => simp [keys]
  | cons hd tl ih =>
    by_cases hk1 : hd.1 = k
    · simp [contains, find?, hk1] at hc
    · have := ih (by simpa [contains, find?, hk1] using hc)
      simp only [keys, List.map_cons, List.mem_cons]
      push_neg
      exact ⟨fun hh => hk1 hh.symm, by simpa [keys] using this⟩

theorem wfKeys_insert (m : OMap α β) (k : α) (v : β) (hw : WFKeys m) :
    WFKeys (m.insert k v) := by
  unfold WFKeys
  rw [keys_insert]
  by_cases hc : m.contains k = true
  · simpa [hc] using hw
  · have hne : m.contains k = false := by simpa using hc
    have hk : k ∉ m.keys := not_mem_keys_of_contains_eq_false m k hne
    simp only [hne, Bool.false_eq_true, if_neg]
    simpa [List.nodup_append] using ⟨hw, hk⟩

end OMap

/-! ## Claim C1: authorization codes are single-use -/

theorem exchange_code_absent (now : Nat) (fAT fRT : String)
    (client : ClientInfo) (ac : AuthorizationCode) (s : ProviderState)
    (h : s.auth_codes.contains ac.code = false) :
    exchange_authorization_code now fAT fRT client ac s =
      (.error "Invalid authorization code", s) := by
  simp [exchange_authorization_code, h]

theorem exchange_code_ok_deletes (now : Nat) (fAT fRT : String)
    (client : ClientInfo) (ac : AuthorizationCode) (s : ProviderState)
    (h : resultOk (exchange_authorization_code now fAT fRT client ac s).1 = true) :
    (exchange_authorization_code now fAT fRT client ac s).2.auth_codes.contains
      ac.code = false := by
  by_cases h1 : s.auth_codes.contains ac.code = true
  · by_cases h2 : client.client_id = ""
    · simp [exchange_authorization_code, h1, h2, resultOk] at h
    · by_cases h3 : (evict_expired now s).auth_codes.contains ac.code = true
      · simp [exchange_authorization_code, h1, h2, h3,
          OMap.contains_erase_self]
      · simp only [Bool.not_eq_true] at h3
        simp [exchange_authorization_code, h1, h2, h3, resultOk] at h
  · simp only [Bool.not_eq_true] at h1
    simp [exchange_authorization_code, h1, resultOk] at h

/-- C1: authorization codes are single-use.  When an exchange succeeds,
the code is deleted from the auth-code store, so a second
`exchange_authorization_code` call with the same code observes absence,
raises "Invalid authorization code" without touching the state, and does
not succeed — at most one successful exchange occurs per code. -/
theorem C1_authorization_code_single_use
    (s : ProviderState) (now now2 : Nat) (fAT fRT fAT2 fRT2 : String)
    (client client2 : ClientInfo) (ac : AuthorizationCode)
    (h : resultOk (exchange_authorization_code now fAT fRT client ac s).1 = true) :
    (exchange_authorization_code now fAT fRT client ac s).2.auth_codes.contains
        ac.code = false ∧
    exchange_authorization_code now2 fAT2 fRT2 client2 ac
        (exchange_authorization_code now fAT fRT client ac s).2 =
      (.error "Invalid authorization code",
        (exchange_authorization_code now fAT fRT client ac s).2) ∧
    resultOk (exchange_authorization_code now2 fAT2 fRT2 client2 ac
        (exchange_authorization_code now fAT fRT client ac s).2).1 = false := by
  have hdel := exchange_code_ok_deletes now fAT fRT client ac s h
  have habs := exchange_code_absent now2 fAT2 fRT2 client2 ac _ hdel
  refine ⟨hdel, habs, ?_⟩
  rw [habs]
  simp [resultOk]

/-- C1 witness: a concrete successful exchange followed by a failing
second exchange of the same code. -/
theorem C1_witness :
    resultOk (exchange_authorization_code 0 "at1" "rt1" fixClient acC1
        fixStateC1).1 = true ∧
    (exchange_authorization_code 0 "at1" "rt1" fixClient acC1
        fixStateC1).2.auth_codes.contains acC1.code = false ∧
    exchange_authorization_code 1 "at2" "rt2" fixClient acC1
        (exchange_authorization_code 0 "at1" "rt1" fixClient acC1
          fixStateC1).2 =
      (.error "Invalid authorization code",
        (exchange_authorization_code 0 "at1" "rt1" fixClient acC1
          fixStateC1).2) ∧
    resultOk (exchange_authorization_code 1 "at2" "rt2" fixClient acC1
        (exchange_authorization_code 0 "at1" "rt1" fixClient acC1
          fixStateC1).2).1 = false :=
  ⟨by decide,
    (C1_authorization_code_single_use fixStateC1 0 1 "at1" "rt1" "at2" "rt2"
      fixClient fixClient acC1 (by decide)).1,
    (C1_authorization_code_single_use fixStateC1 0 1 "at1" "rt1" "at2" "rt2"
      fixClient fixClient acC1 (by decide)).2.1,
    (C1_authorization_code_single_use fixStateC1 0 1 "at1" "rt1" "at2" "rt2"
      fixClient fixClient acC1 (by decide)).2.2⟩

/-! ## Claim C7: client registration capacity -/

/-- C7: registering a fresh, nonempty client id succeeds below the cap;
at the cap a fresh id is rejected and the state is unchanged;
re-registering an existing id always succeeds and never changes the
number of registered clients. -/
theorem C7_register_client_capacity
    (s : ProviderState) (info : ClientInfo) (hid : info.client_id ≠ "") :
    (s.clients.size < MAX_CLIENTS →
      register_client s info =
        .ok { s with clients := s.clients.insert info.client_id info }) ∧
    (s.clients.contains info.client_id = false →
      s.clients.size ≥ MAX_CLIENTS →
      register_client s info =
          .error "Maximum number of registered clients reached" ∧
        stepState (.opRegisterClient info) s = s) ∧
    (s.clients.contains info.client_id = true →
      register_client s info =
          .ok { s with clients := s.clients.insert info.client_id info } ∧
        (s.clients.insert info.client_id info).size = s.clients.size) := by
  refine ⟨?_, ?_, ?_⟩
  · intro hlt
    simp [register_client, hid]
    exact fun _ => hlt
  · intro hfresh hge
    have hc : (!s.clients.contains info.client_id) = true ∧
        s.clients.size ≥ MAX_CLIENTS := ⟨by simp [hfresh], hge⟩
    constructor
    · simp [register_client, hid, hc]
    · simp [stepState, register_client, hid, hc]
  · intro hmem
    refine ⟨?_, OMap.size_insert_contains _ _ _ hmem⟩
    simp [register_client, hid]
    intro hcon
    simp [hmem] at hcon

/-- C7 witness: registering a fresh client on a provider holding one
client succeeds. -/
theorem C7_witness :
    register_client fixStateC1 ⟨"client-2", "m2"⟩ =
      .ok { fixStateC1 with
        clients := fixStateC1.clients.insert "client-2" ⟨"client-2", "m2"⟩ } :=
  (C7_register_client_capacity fixStateC1 ⟨"client-2", "m2"⟩
    (by decide)).1 (by decide)

/-! ## Claim C8: auto-approve gate -/

/-- C8: `NoOpApprovalManager.require` always returns APPROVED and emits
exactly one warning-level audit entry carrying the tool name, approval id,
client id (with the `"<unknown>"` sentinel for an absent/empty client id),
request id, and the full argument mapping. -/
theorem C8_noop_auto_approve (r : ApprovalRequest) :
    NoOpRequire r =
      (ApprovalDecision.APPROVED,
        [{ level := LogLevel.warning, tool_name := r.tool_name,
           approval_id := r.id, client_field := clientOrUnknown r.client_id,
           request_id := r.request_id, arguments := r.arguments }]) ∧
    (NoOpRequire r).2.length = 1 :=
  ⟨rfl, rfl⟩

/-! ## Claim C3: lazy expiry boundary -/

/-- C3 counterexample: at `now = expires_at` (100 ≥ 100) the claim demands
that `load_access_token` return none and delete the token, but the code's
strict comparison `expires_at < now` keeps and returns the token and
leaves the state unchanged. -/
theorem C3_counterexample :
    100 ≥ 100 ∧ tokC3.expires_at = some 100 ∧
    (load_access_token 100 "tok" fixStateC3).1 = some tokC3 ∧
    (load_access_token 100 "tok" fixStateC3).2 = fixStateC3 := by
  decide

/-- C3 amended: lazy expiry at lookup uses the strict boundary
`now > expires_at`: whenever the stored expiry is non-zero and strictly
below `now`, `load_access_token` (resp. `load_refresh_token`) returns none
and deletes the entry, which is then absent from the store; the
`_evict_expired` sweep, by contrast, removes entries already at
`now ≥ expires_at`. -/
theorem C3_lazy_expiry_strict
    (now t : Nat) (token : String) (s : ProviderState) (tk : AccessToken)
    (hfind : s.access_tokens.find? token = some tk)
    (hexp : tk.expires_at = some t) (ht0 : t ≠ 0) (hlt : t < now) :
    load_access_token now token s =
      (none, { s with access_tokens := s.access_tokens.erase token }) ∧
    (load_access_token now token s).2.access_tokens.find? token = none ∧
    (∀ (rtoken : String) (rtk : RefreshToken) (t' : Nat),
      s.refresh_tokens.find? rtoken = some rtk →
      rtk.expires_at = some t' → t' ≠ 0 → t' < now →
      load_refresh_token now rtoken s =
        (none, { s with refresh_tokens := s.refresh_tokens.erase rtoken }) ∧
      (load_refresh_token now rtoken s).2.refresh_tokens.find? rtoken = none) ∧
    (∀ (k : String) (atk : AccessToken) (u : Nat),
      OMap.WFKeys s.access_tokens →
      s.access_tokens.find? k = some atk →
      atk.expires_at = some u → u ≠ 0 → u ≤ now →
      (evict_expired now s).access_tokens.find? k = none) := by
  have hload : load_access_token now token s =
      (none, { s with access_tokens := s.access_tokens.erase token }) := by
    simp [load_access_token, hfind, expiredStrict, expiryTruthy, hexp, ht0, hlt]
  refine ⟨hload, ?_, ?_, ?_⟩
  · rw [hload]
    exact OMap.find?_erase_self _ _
  · intro rtoken rtk t' hrfind hrexp hr0 hrlt
    have hrload : load_refresh_token now rtoken s =
        (none, { s with refresh_tokens := s.refresh_tokens.erase rtoken }) := by
      simp [load_refresh_token, hrfind, expiredStrict, expiryTruthy, hrexp,
        hr0, hrlt]
    refine ⟨hrload, ?_⟩
    rw [hrload]
    exact OMap.find?_erase_self _ _
  · intro k atk u hw hkfind hkexp hk0 hkle
    have := OMap.find?_filter_of_wf s.access_tokens
      (fun p => keepUnexpired now p.2.expires_at) k atk hw hkfind
    rw [show (evict_expired now s).access_tokens =
      s.access_tokens.filter (fun p => keepUnexpired now p.2.expires_at)
      from rfl, this]
    simp [keepUnexpired, expiryTruthy, hkexp, hk0, Nat.not_lt.mpr hkle]

/-- C3 witness: a token with expiry 100 looked up at time 101 is
reported absent and deleted. -/
theorem C3_witness :
    load_access_token 101 "tok" fixStateC3 =
      (none, { fixStateC3 with
        access_tokens := fixStateC3.access_tokens.erase "tok" }) :=
  (C3_lazy_expiry_strict 101 100 "tok" fixStateC3 tokC3 (by decide) rfl
    (by decide) (by decide)).1

/-! ## Claim C4: refresh rotation -/

/-- C4 counterexample: the code performs no subset validation of the
requested scopes.  Refreshing `rtC4` (original scopes `["mcp"]`) while
requesting `["admin"]` issues tokens whose scope set is `["admin"]`,
which is not a subset of the original scopes. -/
theorem C4_counterexample :
    (exchange_refresh_token 0 "at-new" "rt-new" fixClient rtC4 ["admin"]
        fixStateC4).2.access_tokens.find? "at-new" =
      some ⟨"at-new", "client-1", ["admin"], some 86400, none⟩ ∧
    "admin" ∉ rtC4.scopes ∧
    (exchange_refresh_token 0 "at-new" "rt-new" fixClient rtC4 ["admin"]
        fixStateC4).1 =
      .ok ⟨"at-new", "Bearer", 86400, some "rt-new", "admin"⟩ :=
  ⟨by decide, by decide, rfl⟩

/-- C4 amended: for any presented refresh token (in particular a known,
unexpired one), `exchange_refresh_token` revokes it (absent from the
refresh store afterward, the new refresh token string being fresh) and
issues a new access/refresh pair whose scope set is the requested scope
list taken verbatim when non-empty — without any subset validation — and
the original token's scopes otherwise. -/
theorem C4_refresh_rotation
    (now : Nat) (fAT fRT : String) (client : ClientInfo)
    (rt : RefreshToken) (scopes : List String) (s : ProviderState)
    (hcid : client.client_id ≠ "") (hfresh : fRT ≠ rt.token) :
    (exchange_refresh_token now fAT fRT client rt scopes
        s).2.refresh_tokens.contains rt.token = false ∧
    (exchange_refresh_token now fAT fRT client rt scopes
        s).2.access_tokens.find? fAT =
      some ⟨fAT, client.client_id, effectiveScopes scopes rt.scopes,
        some (now + ACCESS_TOKEN_TTL), none⟩ ∧
    (exchange_refresh_token now fAT fRT client rt scopes
        s).2.refresh_tokens.find? fRT =
      some ⟨fRT, client.client_id, effectiveScopes scopes rt.scopes,
        some (now + REFRESH_TOKEN_TTL)⟩ ∧
    (exchange_refresh_token now fAT fRT client rt scopes s).1 =
      .ok ⟨fAT, "Bearer", ACCESS_TOKEN_TTL, some fRT,
        joinScopes (effectiveScopes scopes rt.scopes)⟩ ∧
    (scopes ≠ [] → effectiveScopes scopes rt.scopes = scopes) ∧
    (scopes = [] → effectiveScopes scopes rt.scopes = rt.scopes) := by
  have hne : rt.token ≠ fRT := Ne.symm hfresh
  refine ⟨?_, ?_, ?_, ?_, ?_, ?_⟩
  · by_cases hct : (evict_expired now s).refresh_tokens.contains rt.token = true
    · simp [exchange_refresh_token, hcid, hct,
        OMap.contains_insert_ne _ _ _ _ hne, OMap.contains_erase_self]
    · simp only [Bool.not_eq_true] at hct
      simp [exchange_refresh_token, hcid, hct,
        OMap.contains_insert_ne _ _ _ _ hne]
  · simp [exchange_refresh_token, hcid, OMap.find?_insert_self]
  · simp [exchange_refresh_token, hcid, OMap.find?_insert_self]
  · simp [exchange_refresh_token, hcid]
  · intro hs
    cases scopes with
    | nil => exact absurd rfl hs
    | cons a as => rfl
  · intro hs
    subst hs
    rfl

/-- C4 witness: refreshing the known, unexpired token `rtC4` with no
requested scopes leaves it revoked. -/
theorem C4_witness :
    (exchange_refresh_token 0 "at-new" "rt-new" fixClient rtC4 []
        fixStateC4).2.refresh_tokens.contains rtC4.token = false :=
  (C4_refresh_rotation 0 "at-new" "rt-new" fixClient rtC4 [] fixStateC4
    (by decide) (by decide)).1

/-! ## Claim C5: consent consumed exactly once -/

/-- C5: consent is first-submission-wins.  Denial redirects to the stored
redirect URI with `error=access_denied` and the original state and
deletes the consent state; approval mints exactly one authorization code
bound to the stored PKCE challenge/redirect/resource and deletes the
consent state; after either, the state is gone, and any submission for an
absent state yields the 400 invalid-state response with the provider
unchanged — no double code issuance is possible. -/
theorem C5_consent_first_submission_wins
    (now : Nat) (freshCode : String) (state : String) (action : Option String)
    (s : ProviderState) (sd : ConsentStateData)
    (hfind : s.state_mapping.find? state = some sd) :
    (action ≠ some "approve" →
      handle_consent now freshCode (some state) action s =
        (.redirect sd.redirect_uri none (some "access_denied") state,
          { s with state_mapping := s.state_mapping.erase state })) ∧
    (handle_consent now freshCode (some state) (some "approve") s =
      (.redirect sd.redirect_uri (some freshCode) none state,
        { s with
          auth_codes := s.auth_codes.insert freshCode
            ⟨freshCode, sd.client_id, sd.redirect_uri,
              sd.redirect_uri_provided_explicitly,
              some (now + AUTH_CODE_TTL), ["mcp"], sd.code_challenge,
              sd.resource⟩
          state_mapping := s.state_mapping.erase state })) ∧
    (handle_consent now freshCode (some state) action
        s).2.state_mapping.find? state = none ∧
    (∀ (now' : Nat) (fc' : String) (act' : Option String)
        (s' : ProviderState),
      s'.state_mapping.find? state = none →
      handle_consent now' fc' (some state) act' s' = (.invalidState, s')) := by
  refine ⟨?_, ?_, ?_, ?_⟩
  · intro hact
    simp [handle_consent, hfind, hact]
  · simp [handle_consent, hfind]
  · by_cases hact : action = some "approve"
    · subst hact
      simp [handle_consent, hfind, OMap.find?_erase_self]
    · simp [handle_consent, hfind, hact, OMap.find?_erase_self]
  · intro now' fc' act' s' hnone
    simp [handle_consent, hnone]

/-- C5 witness: denying the stored consent state `"st1"` redirects with
`error=access_denied` and deletes the state. -/
theorem C5_witness :
    handle_consent 0 "code-x" (some "st1") (some "deny") fixStateC5 =
      (.redirect sdC5.redirect_uri none (some "access_denied") "st1",
        { fixStateC5 with
          state_mapping := fixStateC5.state_mapping.erase "st1" }) :=
  (C5_consent_first_submission_wins 0 "code-x" "st1" (some "deny")
    fixStateC5 sdC5 (by decide)).1 (by decide)

/-! ## Claim C10: refresh drops the resource indicator -/

theorem exchange_code_ok_access (now : Nat) (fAT fRT : String)
    (client : ClientInfo) (ac : AuthorizationCode) (s : ProviderState)
    (h : resultOk (exchange_authorization_code now fAT fRT client ac s).1 = true) :
    (exchange_authorization_code now fAT fRT client ac
        s).2.access_tokens.find? fAT =
      some ⟨fAT, client.client_id, ac.scopes, some (now + ACCESS_TOKEN_TTL),
        ac.resource⟩ := by
  by_cases h1 : s.auth_codes.contains ac.code = true
  · by_cases h2 : client.client_id = ""
    · simp [exchange_authorization_code, h1, h2, resultOk] at h
    · by_cases h3 : (evict_expired now s).auth_codes.contains ac.code = true
      · simp [exchange_authorization_code, h1, h2, h3,
          OMap.find?_insert_self]
      · simp only [Bool.not_eq_true] at h3
        simp [exchange_authorization_code, h1, h2, h3, resultOk] at h
  · simp only [Bool.not_eq_true] at h1
    simp [exchange_authorization_code, h1, resultOk] at h

/-- C10: a successful code exchange stores an access token carrying the
authorization code's resource indicator, while the access token stored by
any refresh carries no resource — the resource field is not preserved
across token rotation. -/
theorem C10_refresh_drops_resource
    (now now2 : Nat) (fAT fRT fAT2 fRT2 : String)
    (client client2 : ClientInfo) (ac : AuthorizationCode)
    (rt : RefreshToken) (scopes : List String) (s s' : ProviderState)
    (h1 : resultOk (exchange_authorization_code now fAT fRT client ac s).1 = true)
    (h2 : client2.client_id ≠ "") :
    (∃ tk : AccessToken,
      (exchange_authorization_code now fAT fRT client ac
          s).2.access_tokens.find? fAT = some tk ∧
      tk.resource = ac.resource) ∧
    (∃ tk2 : AccessToken,
      (exchange_refresh_token now2 fAT2 fRT2 client2 rt scopes
          s').2.access_tokens.find? fAT2 = some tk2 ∧
      tk2.resource = none) := by
  refine ⟨⟨_, exchange_code_ok_access now fAT fRT client ac s h1, rfl⟩, ?_⟩
  refine ⟨⟨fAT2, client2.client_id, effectiveScopes scopes rt.scopes,
    some (now2 + ACCESS_TOKEN_TTL), none⟩, ?_, rfl⟩
  simp [exchange_refresh_token, h2, OMap.find?_insert_self]

/-- C10 witness: after the concrete code exchange of `acC1` (resource
`some "https://mcp.example"`) and a concrete refresh, the refreshed
access token has no resource. -/
theorem C10_witness :
    (∃ tk : AccessToken,
      (exchange_authorization_code 0 "at1" "rt1" fixClient acC1
          fixStateC1).2.access_tokens.find? "at1" = some tk ∧
      tk.resource = acC1.resource) ∧
    (∃ tk2 : AccessToken,
      (exchange_refresh_token 5 "at3" "rt3" fixClient rtC4 []
          fixStateC4).2.access_tokens.find? "at3" = some tk2 ∧
      tk2.resource = none) :=
  C10_refresh_drops_resource 0 5 "at1" "rt1" "at3" "rt3" fixClient fixClient
    acC1 rtC4 [] fixStateC1 fixStateC4 (by decide) (by decide)

/-! ## Claim C9: consent states have no time-based expiry -/

theorem register_client_ok_state_mapping (s : ProviderState)
    (info : ClientInfo) (s' : ProviderState)
    (h : register_client s info = .ok s') :
    s'.state_mapping = s.state_mapping := by
  unfold register_client at h
  split_ifs at h
  injection h with h
  rw [← h]

theorem load_access_token_state_mapping (now : Nat) (token : String)
    (s : ProviderState) :
    (load_access_token now token s).2.state_mapping = s.state_mapping := by
  unfold load_access_token
  split
  · rfl
  · split <;> rfl

theorem load_refresh_token_state_mapping (now : Nat) (token : String)
    (s : ProviderState) :
    (load_refresh_token now token s).2.state_mapping = s.state_mapping := by
  unfold load_refresh_token
  split
  · rfl
  · split <;> rfl

theorem exchange_code_state_mapping (now : Nat) (fAT fRT : String)
    (client : ClientInfo) (ac : AuthorizationCode) (s : ProviderState) :
    (exchange_authorization_code now fAT fRT client ac
      s).2.state_mapping = s.state_mapping := by
  by_cases h1 : s.auth_codes.contains ac.code = true
  · by_cases h2 : client.client_id = ""
    · simp [exchange_authorization_code, h1, h2]
    · by_cases h3 : (evict_expired now s).auth_codes.contains ac.code = true
      · simp only [evict_expired] at h3
        simp [exchange_authorization_code, h1, h2, h3, evict_expired]
      · simp only [Bool.not_eq_true] at h3
        simp only [evict_expired] at h3
        simp [exchange_authorization_code, h1, h2, h3, evict_expired]
  · simp only [Bool.not_eq_true] at h1
    simp [exchange_authorization_code, h1]

theorem exchange_refresh_state_mapping (now : Nat) (fAT fRT : String)
    (client : ClientInfo) (rt : RefreshToken) (scopes : List String)
    (s : ProviderState) :
    (exchange_refresh_token now fAT fRT client rt scopes
      s).2.state_mapping = s.state_mapping := by
  by_cases hcid : client.client_id = ""
  · simp [exchange_refresh_token, hcid]
  · simp [exchange_refresh_token, hcid, evict_expired]

/-- C9: the expiry sweep never touches consent states, and a consent
state only ever leaves the store by being consumed by a consent
submission for that very state, or by the oldest-first eviction performed
by `authorize` when the consent store is at capacity (the evicted state
being the oldest key). -/
theorem C9_consent_states_never_expire
    (op : ProviderOp) (s : ProviderState) (st : String) :
    (∀ now, (evict_expired now s).state_mapping = s.state_mapping) ∧
    (st ∈ OMap.keys s.state_mapping →
      st ∉ OMap.keys (stepState op s).state_mapping →
      (∃ now fc act, op = .opHandleConsent now fc (some st) act) ∨
      (∃ now fs client params, op = .opAuthorize now fs client params ∧
        s.state_mapping.size ≥ MAX_STATE_MAPPINGS ∧
        s.state_mapping.firstKey? = some st)) := by
  refine ⟨fun _ => rfl, ?_⟩
  intro h1 h2
  cases op with
  | opRegisterClient info =>
    exfalso
    apply h2
    simp only [stepState]
    cases hr : register_client s info with
    | ok s' => rw [register_client_ok_state_mapping s info s' hr]; exact h1
    | error e => exact h1
  | opAuthorize now fs client params =>
    right
    by_cases hcap : s.state_mapping.size ≥ MAX_STATE_MAPPINGS
    · obtain ⟨o, ho⟩ : ∃ o, s.state_mapping.firstKey? = some o := by
        cases hsm : s.state_mapping with
        | nil =>
          rw [hsm] at hcap
          simp [OMap.size, MAX_STATE_MAPPINGS] at hcap
        | cons hd tl => exact ⟨hd.1, rfl⟩
      have hpost : (stepState (.opAuthorize now fs client params) s).state_mapping =
          (s.state_mapping.erase o).insert (orTokenHex params.state fs)
            ⟨params.redirect_uri, params.code_challenge,
              params.redirect_uri_provided_explicitly, client.client_id,
              params.resource⟩ := by
        simp [stepState, authorize, evict_expired, hcap, ho]
      rw [hpost, OMap.mem_keys_insert, OMap.mem_keys_erase] at h2
      push_neg at h2
      have hso : st = o := h2.2 h1
      exact ⟨now, fs, client, params, rfl, hcap, by rw [hso]; exact ho⟩
    · exfalso
      apply h2
      have hpost : (stepState (.opAuthorize now fs client params) s).state_mapping =
          s.state_mapping.insert (orTokenHex params.state fs)
            ⟨params.redirect_uri, params.code_challenge,
              params.redirect_uri_provided_explicitly, client.client_id,
              params.resource⟩ := by
        simp [stepState, authorize, evict_expired, hcap]
      rw [hpost, OMap.mem_keys_insert]
      exact Or.inr h1
  | opGetConsentPage state => exact absurd h1 h2
  | opHandleConsent now fc formState act =>
    cases formState with
    | none => exact absurd h1 h2
    | some state0 =>
      cases hf : s.state_mapping.find? state0 with
      | none =>
        exfalso
        apply h2
        have : (stepState (.opHandleConsent now fc (some state0) act) s) = s := by
          simp [stepState, handle_consent, hf]
        rw [this]
        exact h1
      | some sd =>
        have hpost : (stepState (.opHandleConsent now fc (some state0) act)
            s).state_mapping = s.state_mapping.erase state0 := by
          by_cases hact : act = some "approve"
          · subst hact
            simp [stepState, handle_consent, hf]
          · simp [stepState, handle_consent, hf, hact]
        rw [hpost, OMap.mem_keys_erase] at h2
        push_neg at h2
        left
        exact ⟨now, fc, act, by rw [h2 h1]⟩
  | opLoadAuthorizationCode code => exact absurd h1 h2
  | opExchangeAuthorizationCode now fAT fRT client ac =>
    exfalso
    apply h2
    show st ∈ OMap.keys (exchange_authorization_code now fAT fRT client ac
      s).2.state_mapping
    rw [exchange_code_state_mapping]
    exact h1
  | opLoadAccessToken now token =>
    exfalso
    apply h2
    show st ∈ OMap.keys (load_access_token now token s).2.state_mapping
    rw [load_access_token_state_mapping]
    exact h1
  | opLoadRefreshToken now token =>
    exfalso
    apply h2
    show st ∈ OMap.keys (load_refresh_token now token s).2.state_mapping
    rw [load_refresh_token_state_mapping]
    exact h1
  | opExchangeRefreshToken now fAT fRT client rt scopes =>
    exfalso
    apply h2
    show st ∈ OMap.keys (exchange_refresh_token now fAT fRT client rt
      scopes s).2.state_mapping
    rw [exchange_refresh_state_mapping]
    exact h1
  | opRevokeToken token => exact absurd h1 h2
  | opEvictExpired now => exact absurd h1 h2

/-- C9 witness: the consent state `"st1"` disappears across a consent
denial, and the theorem attributes the removal to that submission. -/
theorem C9_witness :
    (∃ now fc act,
      (ProviderOp.opHandleConsent 0 "code-x" (some "st1") (some "deny")) =
        .opHandleConsent now fc (some "st1") act) ∨
    (∃ now fs client params,
      (ProviderOp.opHandleConsent 0 "code-x" (some "st1") (some "deny")) =
        .opAuthorize now fs client params ∧
      fixStateC5.state_mapping.size ≥ MAX_STATE_MAPPINGS ∧
      fixStateC5.state_mapping.firstKey? = some "st1") :=
  (C9_consent_states_never_expire
    (.opHandleConsent 0 "code-x" (some "st1") (some "deny")) fixStateC5
    "st1").2 (by decide) (by decide)

/-! ## Claim C6: sliding-window rate limiting -/

theorem is_rate_limited_spec (now : Int) (ip : String)
    (rule : RateLimitRule) (st : LimiterState) :
    ((is_rate_limited now ip rule st).1 = true ↔
      ((windowTS st (ip, rule.pathPre)).filter
        (fun t => t > now - rule.window_seconds)).length ≥
        rule.max_requests) ∧
    ((is_rate_limited now ip rule st).1 = true →
      (is_rate_limited now ip rule st).2.windows =
        st.windows.insert (ip, rule.pathPre)
          ⟨(windowTS st (ip, rule.pathPre)).filter
            (fun t => t > now - rule.window_seconds)⟩) ∧
    ((is_rate_limited now ip rule st).1 = false →
      OMap.WFKeys st.windows → 0 ≤ maxWindowSeconds st.rules →
      OMap.find? (is_rate_limited now ip rule st).2.windows
          (ip, rule.pathPre) =
        some ⟨((windowTS st (ip, rule.pathPre)).filter
          (fun t => t > now - rule.window_seconds)) ++ [now]⟩) := by
  by_cases hlim : ((windowTS st (ip, rule.pathPre)).filter
      (fun t => t > now - rule.window_seconds)).length ≥ rule.max_requests
  · refine ⟨by simp [is_rate_limited, hlim], fun _ => by
      simp [is_rate_limited, hlim], fun hfalse => ?_⟩
    simp [is_rate_limited, hlim] at hfalse
  · have hfst : (is_rate_limited now ip rule st).1 = false := by
      simp only [is_rate_limited]
      rw [if_neg hlim]
      split <;> rfl
    refine ⟨?_, fun htrue => ?_, ?_⟩
    · rw [hfst]
      simp [hlim]
    · rw [hfst] at htrue
      simp at htrue
    · intro _ hwf hmw
      have hkeep : ¬ now < now - maxWindowSeconds st.rules * 2 := by omega
      have hi := OMap.find?_insert_self st.windows (ip, rule.pathPre)
        (⟨((windowTS st (ip, rule.pathPre)).filter
          (fun t => t > now - rule.window_seconds)) ++ [now]⟩ : ClientWindow)
      have hfw := OMap.find?_filter_of_wf
        (st.windows.insert (ip, rule.pathPre)
          ⟨((windowTS st (ip, rule.pathPre)).filter
            (fun t => t > now - rule.window_seconds)) ++ [now]⟩)
        (fun kv => match kv.2.timestamps.getLast? with
          | none => false
          | some t => ¬ t < now - maxWindowSeconds st.rules * 2)
        (ip, rule.pathPre) _
        (OMap.wfKeys_insert _ _ _ hwf) hi
      simp only [List.getLast?_concat] at hfw
      rw [if_pos (by simpa using hkeep)] at hfw
      simp only [is_rate_limited]
      rw [if_neg hlim]
      split
      · exact hfw
      · exact hi

theorem sameTimeRun_spec (ip : String) (rule : RateLimitRule) (t0 : Int)
    (rules : List RateLimitRule) (hw : 0 < rule.window_seconds) :
    ∀ k, k ≤ rule.max_requests →
      sameTimeRun ip rule t0 rules k =
        (⟨rules, if k = 0 then []
          else [((ip, rule.pathPre), ⟨List.replicate k t0⟩)]⟩, true) := by
  intro k
  induction k with
  | zero => intro _; rfl
  | succ k ih =>
    intro hk
    have hklt : k < rule.max_requests := Nat.lt_of_succ_le hk
    have hkle : k ≤ rule.max_requests := Nat.le_of_lt hklt
    simp only [sameTimeRun, ih hkle]
    have hm0 : ¬ rule.max_requests = 0 := by omega
    have hle : ¬ rule.max_requests ≤ k := by omega
    by_cases hk0 : k = 0
    · subst hk0
      have hnl : ¬ (([] : List Int).length ≥ rule.max_requests) := by
        simp
        omega
      simp [is_rate_limited, windowTS, OMap.find?, hnl, OMap.insert,
        OMap.size, MAX_TRACKED_CLIENTS, List.replicate, hm0]
    · have hfr : (List.replicate k t0).filter
          (fun t => t > t0 - rule.window_seconds) = List.replicate k t0 := by
        apply List.filter_eq_self.mpr
        intro b hb
        rw [List.eq_of_mem_replicate hb]
        simp only [decide_eq_true_eq]
        omega
      have hnl : ¬ ((List.replicate k t0).length ≥ rule.max_requests) := by
        simpa using hklt
      simp [is_rate_limited, windowTS, OMap.find?, hk0, hfr, hnl,
        OMap.insert, OMap.size, MAX_TRACKED_CLIENTS, hle,
        ← List.replicate_succ' k t0]

/-- C6: sliding-window rate limiting.  After in-place eviction of
timestamps at or before `now - window_seconds`, a request is rejected
exactly when the remaining count is at least `max_requests`, in which
case nothing is recorded; otherwise `now` is appended and the request
proceeds.  Consequently, from a fresh limiter, `max_requests` requests
inside the window all succeed, the next request in the same window is
rejected, and once time passes the window a request succeeds again. -/
theorem C6_sliding_window_rate_limit
    (now t0 t1 t2 : Int) (ip : String) (rule : RateLimitRule)
    (st : LimiterState) (rules : List RateLimitRule)
    (hwin : 0 < rule.window_seconds) (hmax : 1 ≤ rule.max_requests) :
    ((is_rate_limited now ip rule st).1 = true ↔
      ((windowTS st (ip, rule.pathPre)).filter
        (fun t => t > now - rule.window_seconds)).length ≥
        rule.max_requests) ∧
    ((is_rate_limited now ip rule st).1 = true →
      (is_rate_limited now ip rule st).2.windows =
        st.windows.insert (ip, rule.pathPre)
          ⟨(windowTS st (ip, rule.pathPre)).filter
            (fun t => t > now - rule.window_seconds)⟩) ∧
    ((is_rate_limited now ip rule st).1 = false →
      OMap.WFKeys st.windows → 0 ≤ maxWindowSeconds st.rules →
      OMap.find? (is_rate_limited now ip rule st).2.windows
          (ip, rule.pathPre) =
        some ⟨((windowTS st (ip, rule.pathPre)).filter
          (fun t => t > now - rule.window_seconds)) ++ [now]⟩) ∧
    ((sameTimeRun ip rule t0 rules rule.max_requests).2 = true) ∧
    (t1 < t0 + rule.window_seconds →
      (is_rate_limited t1 ip rule
        (sameTimeRun ip rule t0 rules rule.max_requests).1).1 = true) ∧
    (t0 + rule.window_seconds ≤ t2 →
      (is_rate_limited t2 ip rule
        (sameTimeRun ip rule t0 rules rule.max_requests).1).1 = false) := by
  obtain ⟨hA, hB, hC⟩ := is_rate_limited_spec now ip rule st
  have hrun := sameTimeRun_spec ip rule t0 rules hwin rule.max_requests
    le_rfl
  have hmax0 : ¬ rule.max_requests = 0 := by omega
  refine ⟨hA, hB, hC, by rw [hrun], ?_, ?_⟩
  · intro ht1
    have hfr : (List.replicate rule.max_requests t0).filter
        (fun t => t > t1 - rule.window_seconds) =
        List.replicate rule.max_requests t0 := by
      apply List.filter_eq_self.mpr
      intro b hb
      rw [List.eq_of_mem_replicate hb]
      simp only [decide_eq_true_eq]
      omega
    have hge : (List.replicate rule.max_requests t0).length ≥
        rule.max_requests := by simp
    rw [hrun]
    simp [is_rate_limited, windowTS, OMap.find?, hmax0, hfr, hge]
  · intro ht2
    have hfr : (List.replicate rule.max_requests t0).filter
        (fun t => t > t2 - rule.window_seconds) = [] := by
      rw [List.filter_eq_nil_iff]
      intro b hb
      rw [List.eq_of_mem_replicate hb]
      simp only [decide_eq_true_eq]
      omega
    have hnl : ¬ (([] : List Int).length ≥ rule.max_requests) := by
      simp
      omega
    rw [hrun]
    simp [is_rate_limited, windowTS, OMap.find?, hmax0, hfr, hnl,
      OMap.insert, OMap.size, MAX_TRACKED_CLIENTS]

/-- C6 witness: the default `/token` rule (20 requests per 60 seconds)
from a fresh limiter: 20 requests at time 0 all succeed, a 21st request
at time 30 is rejected, and a request at time 61 succeeds. -/
theorem C6_witness :
    (sameTimeRun "1.2.3.4" ⟨"/token", 20, 60⟩ 0 [⟨"/token", 20, 60⟩]
      20).2 = true ∧
    (is_rate_limited 30 "1.2.3.4" ⟨"/token", 20, 60⟩
      (sameTimeRun "1.2.3.4" ⟨"/token", 20, 60⟩ 0 [⟨"/token", 20, 60⟩]
        20).1).1 = true ∧
    (is_rate_limited 61 "1.2.3.4" ⟨"/token", 20, 60⟩
      (sameTimeRun "1.2.3.4" ⟨"/token", 20, 60⟩ 0 [⟨"/token", 20, 60⟩]
        20).1).1 = false :=
  ⟨(C6_sliding_window_rate_limit 0 0 30 61 "1.2.3.4" ⟨"/token", 20, 60⟩
      ⟨[⟨"/token", 20, 60⟩], []⟩ [⟨"/token", 20, 60⟩] (by decide)
      (by decide)).2.2.2.1,
    (C6_sliding_window_rate_limit 0 0 30 61 "1.2.3.4" ⟨"/token", 20, 60⟩
      ⟨[⟨"/token", 20, 60⟩], []⟩ [⟨"/token", 20, 60⟩] (by decide)
      (by decide)).2.2.2.2.1 (by decide),
    (C6_sliding_window_rate_limit 0 0 30 61 "1.2.3.4" ⟨"/token", 20, 60⟩
      ⟨[⟨"/token", 20, 60⟩], []⟩ [⟨"/token", 20, 60⟩] (by decide)
      (by decide)).2.2.2.2.2 (by decide)⟩

/-! ## Claim C2: bounded stores stay within their caps -/

set_option maxRecDepth 100000 in
/-- C2 (evaluation at the failing input): 51 authorize/approve rounds at
time 0 — all codes still unexpired — leave 51 resident entries in the
auth-code store, exceeding its declared capacity `MAX_AUTH_CODES = 50`:
the `MAX_AUTH_CODES`, `MAX_ACCESS_TOKENS` and `MAX_REFRESH_TOKENS` limits
are declared but never enforced by any code path. -/
theorem C2_auth_code_cap_exceeded :
    OMap.size (mintMany 51).auth_codes = 51 ∧
    MAX_AUTH_CODES = 50 ∧
    OMap.size (mintMany 51).auth_codes > MAX_AUTH_CODES :=
  ⟨by decide, rfl, by decide⟩

end SchwabMCP
